import Mathlib

/-!
Verification of the fio-log parsing and unit-normalization scripts of the
`pku-ssd-write-buffer-graph` repository.

The repository holds three Python scripts:
  * `scripts/plot_fio_l2p_write_buffer_results.py` (namespace `WriteBuffer` below),
  * `scripts/plot_fio_l2p_cache_results.py`        (namespace `Cache` below),
  * `scripts/plot_fio_results.py`                  (namespace `Results` below).

The embedding works on `List Char` as the model of Python `str`.  Numeric
values are modelled by `ℚ` (the scripts' floats only ever hold decimal
literals produced by `float` on digit/dot regex captures, so rational
arithmetic models them exactly).  A Python function that can raise becomes
`Except String` (an exception aborts the whole call) or `Option` where only
`float`/`int` conversion can fail.  Each regex used by the scripts is a
fixed pattern whose leftmost-search semantics is implemented directly by a
deterministic scanner; lazy wildcards (`.*?X`) become "scan for the
earliest position where the rest of the pattern matches".
-/

namespace Fio

/-- Python strings are modelled as lists of characters. -/
abbrev Str := List Char

/-- Python whitespace for `str.strip()` and the regex class `\s`
(ASCII subset: space, tab, newline, carriage return, form feed,
vertical tab; the logs are ASCII). -/
def isPySpace (c : Char) : Bool :=
  c = ' ' || c = '\t' || c = '\n' || c = '\r' || c = '\x0b' || c = '\x0c'

/-- Regex class `\d`. -/
def isDigitC (c : Char) : Bool := '0' ≤ c && c ≤ '9'

/-- Regex class `[\d.]`. -/
def isDigitDot (c : Char) : Bool := isDigitC c || c = '.'

/-- Regex class `[kmun]`. -/
def isKmun (c : Char) : Bool := c = 'k' || c = 'm' || c = 'u' || c = 'n'

/-- `str.strip()` (ASCII whitespace). -/
def pyStrip (l : Str) : Str :=
  ((l.dropWhile isPySpace).reverse.dropWhile isPySpace).reverse

/-- Value of a digit string, e.g. `"4502807" ↦ 4502807`. -/
def digitsToNat (l : Str) : ℕ :=
  l.foldl (fun a c => a * 10 + (c.toNat - '0'.toNat)) 0

/-- Kernel of Python `float` on the strings this program feeds it: an
optional sign, then `digits [. digits]` with at least one digit overall
(`"12."` and `".5"` are accepted, `"."` and `"1.2.3"` are not).  The
call sites only ever pass regex captures over `[\d.]+` or already
stripped text, so the exponent/inf/nan forms of `float` never occur and
are not modelled.  Returns `none` where `float` raises `ValueError`. -/
def pyFloat (l : Str) : Option ℚ :=
  let (sign, l) : ℚ × Str :=
    match l with
    | '-' :: rest => (-1, rest)
    | '+' :: rest => (1, rest)
    | _ => (1, l)
  let intPart := l.takeWhile isDigitC
  let rest := l.dropWhile isDigitC
  match rest with
  | [] => if intPart.isEmpty then none else some (sign * digitsToNat intPart)
  | '.' :: rest2 =>
    let fracPart := rest2.takeWhile isDigitC
    let rest3 := rest2.dropWhile isDigitC
    if rest3.isEmpty && !(intPart.isEmpty && fracPart.isEmpty) then
      some (sign * ((digitsToNat intPart : ℚ) +
        (digitsToNat fracPart : ℚ) / (10 : ℚ) ^ fracPart.length))
    else none
  | _ => none

/-- Kernel of Python `int` on the strings this program feeds it
(optional sign and digits; underscore grouping never occurs in the
logs' header values and is not modelled).  `none` where `int` raises. -/
def pyInt (l : Str) : Option ℤ :=
  let l := pyStrip l
  let (sign, l) : ℤ × Str :=
    match l with
    | '-' :: rest => (-1, rest)
    | '+' :: rest => (1, rest)
    | _ => (1, l)
  if l.isEmpty || !(l.all isDigitC) then none
  else some (sign * digitsToNat l)

/-- `str.lower()` (ASCII). -/
def pyLower (l : Str) : Str := l.map Char.toLower

/-- `a.startswith(b)` on strings. -/
def listStartsWith (pat l : Str) : Bool :=
  match pat, l with
  | [], _ => true
  | _ :: _, [] => false
  | p :: ps, c :: cs => c = p && listStartsWith ps cs

/-- Whether `sub` occurs somewhere in `l` (`sub in l` in Python). -/
def containsSub (sub l : Str) : Bool :=
  match l with
  | [] => listStartsWith sub []
  | _ :: cs => listStartsWith sub l || containsSub sub cs

/-- Index of the first occurrence of `sub` in `l`
(`l.find(sub)`), `none` when absent. -/
def findSub (sub l : Str) : Option ℕ :=
  match l with
  | [] => if listStartsWith sub [] then some 0 else none
  | _ :: cs =>
    if listStartsWith sub l then some 0
    else (findSub sub cs).map (· + 1)

/-- Consume the literal `pat` from the front of `l`; regex/str matching
of a fixed text. -/
def dropLit : Str → Str → Option Str
  | [], l => some l
  | _ :: _, [] => none
  | p :: ps, c :: cs => if c = p then dropLit ps cs else none

/-- Consume a maximal nonempty run of characters satisfying `p`
(a greedy `C+` whose follower is outside the class `C`). -/
def span1 (p : Char → Bool) (l : Str) : Option (Str × Str) :=
  let t := l.takeWhile p
  if t.isEmpty then none else some (t, l.dropWhile p)

/-- Consume a maximal possibly-empty run (`C*`). -/
def span0 (p : Char → Bool) (l : Str) : Str × Str :=
  (l.takeWhile p, l.dropWhile p)

/-- `re.search`: run the matcher `m` at each position in turn and return
the first success, together with the text before the match.  Matchers
hand back their captures and the rest of the input after the match. -/
def searchFirst (m : Str → Option (α × Str)) : Str → Option (Str × α × Str)
  | [] =>
    match m [] with
    | some (a, r) => some ([], a, r)
    | none => none
  | c :: cs =>
    match m (c :: cs) with
    | some (a, r) => some ([], a, r)
    | none =>
      match searchFirst m cs with
      | some (pre, a, r) => some (c :: pre, a, r)
      | none => none

/-- A lazy wildcard followed by the rest of a pattern (`.*?‹m›`): find
the earliest position from which `m` matches and return the consumed
prefix.  With `dotNl := false` the wildcard is `.` without `re.DOTALL`,
so the scan cannot move past a newline. -/
def scanFor (dotNl : Bool) (m : Str → Option (α × Str)) : Str → Option (Str × α × Str)
  | [] =>
    match m [] with
    | some (a, r) => some ([], a, r)
    | none => none
  | c :: cs =>
    match m (c :: cs) with
    | some (a, r) => some ([], a, r)
    | none =>
      if !dotNl && c = '\n' then none
      else
        match scanFor dotNl m cs with
        | some (pre, a, r) => some (c :: pre, a, r)
        | none => none

end Fio

namespace Fio

/-! ### Unit normalizers of `plot_fio_l2p_write_buffer_results.py` -/

namespace WriteBuffer

/-- `parse_iops` (write-buffer script, lines 39-44; the cache script's
`parse_iops` at lines 14-19 is textually identical and is modelled by
this same function): strip, an optional trailing `k` multiplies by
1000, `float` parses the rest. -/
def parse_iops (iops_text : Str) : Option ℚ :=
  let text := pyStrip iops_text
  if text.getLast? = some 'k' then
    (pyFloat text.dropLast).map (· * 1000)
  else
    pyFloat text

/-- `parse_bw_to_mib` (write-buffer script, lines 47-57):
`float(value)` first (a `ValueError` there propagates), then the three
recognized units; any other unit raises `ValueError`. -/
def parse_bw_to_mib (value unit : Str) : Except String ℚ :=
  match pyFloat value with
  | none => .error "ValueError: could not convert string to float"
  | some v =>
    let u := pyStrip unit
    if u = "KiB/s".data then .ok (v / 1024)
    else if u = "MiB/s".data then .ok v
    else if u = "GiB/s".data then .ok (v * 1024)
    else .error ("Unsupported bandwidth unit: " ++ String.mk u)

/-- The pure part of `parse_latency_to_us` (write-buffer script, lines
69-93) after `float(avg_value)` has produced `value`: suffix scaling
first, then the base-unit conversion, with the final
"fallback: assume usec" returning the value unchanged. -/
def latConvert (base_unit suffix : Str) (value : ℚ) : ℚ :=
  let value :=
    if suffix = "k".data then value * 1000
    else if suffix = "m".data then value * 1000000
    else if suffix = "u".data then value * (1 / 1000000)
    else if suffix = "n".data then value * (1 / 1000000000)
    else value
  let unit := pyLower base_unit
  if listStartsWith "nsec".data unit then value / 1000
  else if listStartsWith "usec".data unit then value
  else if listStartsWith "msec".data unit then value * 1000
  else if listStartsWith "sec".data unit then value * 1000000
  else value

/-- `parse_latency_to_us` (write-buffer script, lines 60-93):
`float(avg_value)` (which can raise), then `latConvert`.  The source's
`suffix = suffix or ""` is the identity here since the callers pass the
(possibly empty) regex capture directly. -/
def parse_latency_to_us (base_unit avg_value suffix : Str) : Option ℚ :=
  (pyFloat avg_value).map (latConvert base_unit suffix)

/-- `infer_group` (write-buffer script, lines 96-107). -/
def infer_group (case_name : Str) : Str :=
  if listStartsWith "vol_".data case_name then "volume".data
  else if listStartsWith "bs_".data case_name then "block_size".data
  else if listStartsWith "jobs_".data case_name then "jobs".data
  else if listStartsWith "mode_".data case_name then "mode".data
  else if listStartsWith "qd_scan_".data case_name then "qd_scan".data
  else "other".data

end WriteBuffer

/-! ### Unit normalizers of `plot_fio_l2p_cache_results.py` -/

namespace Cache

/-- `parse_bw_to_mib` (cache script, lines 22-32): like the
write-buffer variant but with NO error branch — an unrecognized unit
falls through to `return value`, handing the raw number back
unconverted. -/
def parse_bw_to_mib (value_text unit_text : Str) : Option ℚ :=
  (pyFloat value_text).map fun value =>
    let unit := pyStrip unit_text
    if unit = "KiB/s".data then value / 1024
    else if unit = "MiB/s".data then value
    else if unit = "GiB/s".data then value * 1024
    else value

/-- `convert_latency_to_us` (cache script, lines 35-50).  Note the
suffix handling differs from the write-buffer script: `k` ×1000,
`m` ×1000000, `u` ×1 (`value *= 1`), `n` ÷1000; and only `nsec`/`nsecs`
(÷1000) and `msec`/`msecs` (×1000) base units convert — anything else,
including `sec`, returns the value unchanged. -/
def convert_latency_to_us (value : ℚ) (unit suffix : Str) : ℚ :=
  let value :=
    if suffix = "k".data then value * 1000
    else if suffix = "m".data then value * 1000000
    else if suffix = "u".data then value * 1
    else if suffix = "n".data then value / 1000
    else value
  if unit = "nsec".data || unit = "nsecs".data then value / 1000
  else if unit = "msec".data || unit = "msecs".data then value * 1000
  else value

end Cache

/-! ### Spec-side reference definitions (for the refinement claims)

These two definitions follow the WORDS of the spec (§4.1), not any of
the scripts, and exist only to be compared with the code's converters. -/

/-- Modelled from the spec: the magnitude of a suffix code,
"k=×10³, m=×10⁶, u=×10⁻⁶, n=×10⁻⁹, none=×1". -/
def specSuffixScale (suffix : Str) : ℚ :=
  if suffix = "k".data then 1000
  else if suffix = "m".data then 1000000
  else if suffix = "u".data then 1 / 1000000
  else if suffix = "n".data then 1 / 1000000000
  else 1

/-- Modelled from the spec: the factor taking a latency base unit to
microseconds, "nsec→usec: ÷1000; msec→usec: ×1000; sec→usec:
×1,000,000" (and usec unchanged).  Only the four enumerated base units
are in the claims' domain; others default to 1. -/
def specBaseToUs (base : Str) : ℚ :=
  if base = "nsec".data then 1 / 1000
  else if base = "usec".data then 1
  else if base = "msec".data then 1000
  else if base = "sec".data then 1000000
  else 1

end Fio

namespace Fio

/-! ### Queue-depth sweep splitting (shared by the cache script and
`plot_fio_results.py`): `re.split(r'--- Testing QD=(\d+) ---', content)`
followed by the pairing loop over `(qd, section)` pairs. -/

/-- Match the QD banner `--- Testing QD=(\d+) ---` at the current
position, returning the captured number.  (`int` on a `\d+` capture
cannot fail.) -/
def matchQdBanner (l : Str) : Option (ℕ × Str) :=
  (dropLit "--- Testing QD=".data l).bind fun l1 =>
  (span1 isDigitC l1).bind fun (ds, l2) =>
  (dropLit " ---".data l2).map fun rest => (digitsToNat ds, rest)

/-- The banner split: each banner's captured QD paired with the text
running up to the next banner (or to the end of the input).  The text
before the first banner (`qd_sections[0]`) is discarded exactly as the
scripts' loops do, and the `if i + 1 < len(qd_sections)` guard there is
always true because `re.split` with one capture group yields an
odd-length list.  Fuel decreases on every emitted section; the top
level supplies `|content| + 1`, more than enough since every banner
consumes characters. -/
def splitQdAux (fuel : ℕ) (l : Str) : List (ℕ × Str) :=
  match fuel with
  | 0 => []
  | fuel + 1 =>
    match searchFirst matchQdBanner l with
    | none => []
    | some (_, qd, rest) =>
      match searchFirst matchQdBanner rest with
      | none => [(qd, rest)]
      | some (pre2, _, _) =>
        (qd, rest.take pre2.length) :: splitQdAux fuel (rest.drop pre2.length)

/-- The `(qd, section text)` pairs of a log, in log order. -/
def splitQdPairs (content : Str) : List (ℕ × Str) :=
  splitQdAux (content.length + 1) content

end Fio

namespace Fio.Cache

/-! ### Extractors of `plot_fio_l2p_cache_results.py` -/

/-- Matcher for `{op_type}: IOPS=([\d.]+k?)` at the current position;
the capture includes the optional `k`. -/
def matchIops (op : Str) (l : Str) : Option (Str × Str) :=
  (dropLit (op ++ ": IOPS=".data) l).bind fun l1 =>
  (span1 isDigitDot l1).bind fun (ds, l2) =>
  match l2 with
  | 'k' :: l3 => some (ds ++ ['k'], l3)
  | _ => some (ds, l2)

/-- `re.search(rf'{op_type}: IOPS=([\d.]+k?)', sec)`, group 1. -/
def iopsSearch (op sec : Str) : Option Str :=
  (searchFirst (matchIops op) sec).map fun (_, g, _) => g

/-- Matcher for `BW=([\d.]+)(KiB/s|MiB/s|GiB/s)`. -/
def matchBw (l : Str) : Option ((Str × Str) × Str) :=
  (dropLit "BW=".data l).bind fun l1 =>
  (span1 isDigitDot l1).bind fun (ds, l2) =>
  match dropLit "KiB/s".data l2 with
  | some l3 => some ((ds, "KiB/s".data), l3)
  | none =>
    match dropLit "MiB/s".data l2 with
    | some l3 => some ((ds, "MiB/s".data), l3)
    | none =>
      match dropLit "GiB/s".data l2 with
      | some l3 => some ((ds, "GiB/s".data), l3)
      | none => none

/-- `re.search(r'BW=([\d.]+)(KiB/s|MiB/s|GiB/s)', sec)`,
groups 1 and 2. -/
def bwSearch (sec : Str) : Option (Str × Str) :=
  (searchFirst matchBw sec).map fun (_, g, _) => g

/-- One `name=([\d.]+)([kmun]*)` leg of the clat statistics line. -/
def matchStat (name : Str) (l : Str) : Option ((Str × Str) × Str) :=
  (dropLit (name ++ ['=']) l).bind fun l1 =>
  (span1 isDigitDot l1).map fun (v, l2) =>
    let (sfx, l3) := span0 isKmun l2
    ((v, sfx), l3)

/-- Matcher for the full clat statistics pattern of
`extract_all_latency_metrics` (cache script, line 57):
`clat \(([^)]+)\):\s+min=([\d.]+)([kmun]*),\s+max=...,\s+avg=...,\s+stdev=([\d.]+)([kmun]*)`. -/
def matchClatStats (l : Str) :
    Option ((Str × (Str × Str) × (Str × Str) × (Str × Str) × (Str × Str)) × Str) :=
  (dropLit "clat (".data l).bind fun l1 =>
  (span1 (fun c => !(c = ')')) l1).bind fun (unit, l2) =>
  (dropLit "):".data l2).bind fun l3 =>
  (span1 isPySpace l3).bind fun (_, l4) =>
  (matchStat "min".data l4).bind fun (mn, l5) =>
  (dropLit ",".data l5).bind fun l6 =>
  (span1 isPySpace l6).bind fun (_, l7) =>
  (matchStat "max".data l7).bind fun (mx, l8) =>
  (dropLit ",".data l8).bind fun l9 =>
  (span1 isPySpace l9).bind fun (_, l10) =>
  (matchStat "avg".data l10).bind fun (av, l11) =>
  (dropLit ",".data l11).bind fun l12 =>
  (span1 isPySpace l12).bind fun (_, l13) =>
  (matchStat "stdev".data l13).map fun (sd, l14) =>
    ((unit, mn, mx, av, sd), l14)

/-- The four converted statistics (min, max, avg, stdev), all in µs. -/
structure LatMetrics where
  min : ℚ
  max : ℚ
  avg : ℚ
  stdev : ℚ
deriving DecidableEq

/-- `extract_all_latency_metrics` (cache script, lines 52-74): regex
miss returns `none`; a `float` failure on a capture raises (the
captures are `[\d.]+` runs, so e.g. `".."` raises `ValueError`). -/
def extract_all_latency_metrics (sec : Str) :
    Except String (Option LatMetrics) :=
  match searchFirst matchClatStats sec with
  | none => .ok none
  | some (_, (unit, mn, mx, av, sd), _) =>
    match pyFloat mn.1, pyFloat mx.1, pyFloat av.1, pyFloat sd.1 with
    | some vmn, some vmx, some vav, some vsd =>
      .ok (some
        { min := convert_latency_to_us vmn unit mn.2
          max := convert_latency_to_us vmx unit mx.2
          avg := convert_latency_to_us vav unit av.2
          stdev := convert_latency_to_us vsd unit sd.2 })
    | _, _, _, _ => .error "ValueError: could not convert string to float"

/-- Matcher for the percentile header
`clat percentiles \(([^)]+)\):`. -/
def matchPctHeader (l : Str) : Option (Str × Str) :=
  (dropLit "clat percentiles (".data l).bind fun l1 =>
  (span1 (fun c => !(c = ')')) l1).bind fun (unit, l2) =>
  (dropLit "):".data l2).map fun rest => (unit, rest)

/-- Matcher for one percentile entry
`{label}=\[\s*([\d.]+)([kmun]?)\]`. -/
def matchPctEntry (label : Str) (l : Str) : Option ((Str × Str) × Str) :=
  (dropLit (label ++ "=[".data) l).bind fun l1 =>
  let (_, l2) := span0 isPySpace l1
  (span1 isDigitDot l2).bind fun (v, l3) =>
  match l3 with
  | c :: l4 =>
    if isKmun c then (dropLit "]".data l4).map fun rest => ((v, [c]), rest)
    else (dropLit "]".data l3).map fun rest => ((v, []), rest)
  | [] => none

/-- The three converted percentiles (p90, p99, p99.9), in µs. -/
structure PctMetrics where
  p90 : ℚ
  p99 : ℚ
  p999 : ℚ
deriving DecidableEq

/-- One percentile lookup of `extract_latency_percentiles`: the whole
section text is searched again for each label, exactly as in the source. -/
def pctLookup (pct_unit label sec : Str) : Except String (Option ℚ) :=
  match searchFirst (matchPctEntry label) sec with
  | none => .ok none
  | some (_, (v, sfx), _) =>
    match pyFloat v with
    | none => .error "ValueError: could not convert string to float"
    | some q => .ok (some (convert_latency_to_us q pct_unit sfx))

/-- `extract_latency_percentiles` (cache script, lines 77-99): find the
header's unit, then the `90.00th` / `99.00th` / `99.90th` entries (in
that order, over the whole section text); any miss returns `none`. -/
def extract_latency_percentiles (sec : Str) :
    Except String (Option PctMetrics) :=
  match searchFirst matchPctHeader sec with
  | none => .ok none
  | some (_, pct_unit, _) =>
    match pctLookup pct_unit "90.00th".data sec with
    | .error e => .error e
    | .ok none => .ok none
    | .ok (some p90) =>
      match pctLookup pct_unit "99.00th".data sec with
      | .error e => .error e
      | .ok none => .ok none
      | .ok (some p99) =>
        match pctLookup pct_unit "99.90th".data sec with
        | .error e => .error e
        | .ok none => .ok none
        | .ok (some p999) => .ok (some { p90 := p90, p99 := p99, p999 := p999 })

end Fio.Cache

namespace Fio.Cache

/-- The dataset dict built by `parse_fio_log_improved` (cache script,
lines 158-168): nine parallel metric lists keyed by queue depth. -/
structure CacheData where
  qd : List ℕ
  iops : List ℚ
  bandwidth : List ℚ
  latency_min : List ℚ
  latency_max : List ℚ
  latency_avg : List ℚ
  latency_p90 : List ℚ
  latency_p99 : List ℚ
  latency_p999 : List ℚ
deriving DecidableEq

/-- The empty dataset the loop starts from. -/
def emptyCacheData : CacheData := ⟨[], [], [], [], [], [], [], [], []⟩

/-- One iteration of the cache script's section loop (lines 174-202).
Mirrors the evaluation order of the source: the two latency extractors
run (and can raise) before the all-or-nothing guard; `parse_iops` and
`parse_bw_to_mib` (with their fallible `float`s) run after it.  The
`.get(key, 0)` lookups in the source always find their key because
`extract_all_latency_metrics` / `extract_latency_percentiles` populate
every key whenever they return a dict. -/
def cacheStep (op : Str) (d : CacheData) (p : ℕ × Str) :
    Except String CacheData :=
  let io := iopsSearch op p.2
  let bw := bwSearch p.2
  match extract_all_latency_metrics p.2 with
  | .error e => .error e
  | .ok latm =>
    match extract_latency_percentiles p.2 with
    | .error e => .error e
    | .ok pct =>
      match io, bw, latm, pct with
      | some iopsStr, some (bwV, bwU), some m, some pc =>
        match WriteBuffer.parse_iops iopsStr with
        | none => .error "ValueError: could not convert string to float"
        | some iv =>
          match parse_bw_to_mib bwV bwU with
          | none => .error "ValueError: could not convert string to float"
          | some bv =>
            .ok { qd := d.qd ++ [p.1]
                  iops := d.iops ++ [iv]
                  bandwidth := d.bandwidth ++ [bv]
                  latency_min := d.latency_min ++ [m.min]
                  latency_max := d.latency_max ++ [m.max]
                  latency_avg := d.latency_avg ++ [m.avg]
                  latency_p90 := d.latency_p90 ++ [pc.p90]
                  latency_p99 := d.latency_p99 ++ [pc.p99]
                  latency_p999 := d.latency_p999 ++ [pc.p999] }
      | _, _, _, _ => .ok d

/-- The section loop of `parse_fio_log_improved`. -/
def cacheLoop (op : Str) : List (ℕ × Str) → CacheData → Except String CacheData
  | [], d => .ok d
  | p :: ps, d =>
    match cacheStep op d p with
    | .error e => .error e
    | .ok d2 => cacheLoop op ps d2

/-- `parse_fio_log_improved` (cache script, lines 150-204), taking the
log's text in place of the file path (the file read is the script's
only I/O and happens before any parsing). -/
def parse_fio_log_improved (content : Str) (op : Str) :
    Except String CacheData :=
  cacheLoop op (splitQdPairs content) emptyCacheData

end Fio.Cache

namespace Fio.Results

/-! ### `plot_fio_results.py` -/

/-- The dataset dict of both parsers of this script (lines 21-26 and
69-74): `qd`, `iops`, `bandwidth`, `latency`. -/
structure RData where
  qd : List ℕ
  iops : List ℚ
  bandwidth : List ℚ
  latency : List ℚ
deriving DecidableEq

/-- The empty dataset. -/
def emptyRData : RData := ⟨[], [], [], []⟩

/-- Matcher for `read: IOPS=([\d.]+)k?` (line 86).  The capture
excludes the `k`; the flag records whether the optional `k` matched,
which is exactly when `'k' in match.group(0)` holds, since the literal
`read: IOPS=` and the `[\d.]+` capture contain no `k`. -/
def matchIopsR (l : Str) : Option ((Str × Bool) × Str) :=
  (dropLit "read: IOPS=".data l).bind fun l1 =>
  (span1 isDigitDot l1).map fun (ds, l2) =>
  match l2 with
  | 'k' :: l3 => ((ds, true), l3)
  | _ => ((ds, false), l2)

/-- Matcher for `BW=([\d.]+)MiB/s` (line 94): only `MiB/s` is
recognized here. -/
def matchBwR (l : Str) : Option (Str × Str) :=
  (dropLit "BW=".data l).bind fun l1 =>
  (span1 isDigitDot l1).bind fun (ds, l2) =>
  (dropLit "MiB/s".data l2).map fun rest => (ds, rest)

/-- The number shape `\d+(?:\.?\d+)?` (min/max legs of line 99): a
maximal digit run, optionally followed by `.` and another digit run.
(Matching the optional group without the dot is impossible after a
maximal run, so this determinization is exact.) -/
def matchNumOptFrac (l : Str) : Option (Str × Str) :=
  (span1 isDigitC l).map fun (ds, l1) =>
  match l1 with
  | '.' :: l2 =>
    match span1 isDigitC l2 with
    | some (fs, l3) => (ds ++ '.' :: fs, l3)
    | none => (ds, l1)
  | _ => (ds, l1)

/-- An optional `(?:k|m|u|n)?` suffix. -/
def dropOptKmun (l : Str) : Str :=
  match l with
  | c :: cs => if isKmun c then cs else l
  | [] => l

/-- The part of the clat pattern of line 99 that follows the lazy
wildcard: `\): min=‹num›‹sfx›, max=‹num›‹sfx›, avg=([\d.]+)`. -/
def matchClatRTail (l : Str) : Option (Str × Str) :=
  (dropLit "): min=".data l).bind fun l1 =>
  (matchNumOptFrac l1).bind fun (_, l2) =>
  (dropLit ", max=".data (dropOptKmun l2)).bind fun l3 =>
  (matchNumOptFrac l3).bind fun (_, l4) =>
  (dropLit ", avg=".data (dropOptKmun l4)).bind fun l5 =>
  (span1 isDigitDot l5).map fun (avg, l6) => (avg, l6)

/-- Matcher for the whole clat pattern of line 99:
`clat \(.*?\): min=..., max=..., avg=([\d.]+)` — `.*?` is lazy and `.`
does not cross newlines (no `re.DOTALL` on this search). -/
def matchClatR (l : Str) : Option (Str × Str) :=
  (dropLit "clat (".data l).bind fun l1 =>
  (scanFor false matchClatRTail l1).map fun (_, avg, rest) => (avg, rest)

/-- One iteration of the improved parser's loop (lines 80-103): each of
the three metrics is appended independently when its own regex matches;
the `qd` key is appended unconditionally at the end of the iteration. -/
def rStep (d : RData) (p : ℕ × Str) : Except String RData :=
  match
    (match searchFirst matchIopsR p.2 with
     | none => (.ok d : Except String RData)
     | some (_, (ds, kflag), _) =>
       match pyFloat ds with
       | none => .error "ValueError: could not convert string to float"
       | some v =>
         .ok { d with iops := d.iops ++ [if kflag then v * 1000 else v] })
  with
  | .error e => (.error e : Except String RData)
  | .ok d1 =>
    match
      (match searchFirst matchBwR p.2 with
       | none => (.ok d1 : Except String RData)
       | some (_, ds, _) =>
         match pyFloat ds with
         | none => .error "ValueError: could not convert string to float"
         | some v => .ok { d1 with bandwidth := d1.bandwidth ++ [v] })
    with
    | .error e => .error e
    | .ok d2 =>
      match
        (match searchFirst matchClatR p.2 with
         | none => (.ok d2 : Except String RData)
         | some (_, avg, _) =>
           match pyFloat avg with
           | none => .error "ValueError: could not convert string to float"
           | some v => .ok { d2 with latency := d2.latency ++ [v] })
      with
      | .error e => .error e
      | .ok d3 => .ok { d3 with qd := d3.qd ++ [p.1] }

/-- The section loop of this script's `parse_fio_log_improved`. -/
def rLoop : List (ℕ × Str) → RData → Except String RData
  | [], d => .ok d
  | p :: ps, d =>
    match rStep d p with
    | .error e => .error e
    | .ok d2 => rLoop ps d2

/-- `parse_fio_log_improved` (plot_fio_results.py, lines 62-105),
taking the log text in place of the file path. -/
def parse_fio_log_improved (content : Str) : Except String RData :=
  rLoop (splitQdPairs content) emptyRData

end Fio.Results

namespace Fio

/-- Decimal digit character. -/
def digitChar (n : ℕ) : Char := Char.ofNat ('0'.toNat + n)

/-- Helper for `natDigits`, fuelled (the fuel `n + 1` always
suffices). -/
def natDigitsAux : ℕ → ℕ → Str → Str
  | 0, _, acc => acc
  | fuel + 1, n, acc =>
    if n < 10 then digitChar n :: acc
    else natDigitsAux fuel (n / 10) (digitChar (n % 10) :: acc)

/-- Python `str(n)` for a nonnegative integer. -/
def natDigits (n : ℕ) : Str := natDigitsAux (n + 1) n []

end Fio

namespace Fio.Results

/-- One tuple produced by `re.findall(qd_pattern, content, re.DOTALL)`
in `parse_fio_log` (line 29): the captured QD, IOPS digits, bandwidth
digits and clat-avg digits. -/
structure QdTuple where
  qd : ℕ
  iopsDs : Str
  bwDs : Str
  avgDs : Str
deriving DecidableEq

/-- `read: IOPS=([\d.]+)k?, BW=([\d.]+)MiB/s` — the first anchored
stretch of `qd_pattern` after its lazy wildcard. -/
def mIopsBw (l : Str) : Option ((Str × Str) × Str) :=
  (dropLit "read: IOPS=".data l).bind fun l1 =>
  (span1 isDigitDot l1).bind fun (iopsDs, l2) =>
  let l2b := match l2 with | 'k' :: l3 => l3 | _ => l2
  (dropLit ", BW=".data l2b).bind fun l4 =>
  (span1 isDigitDot l4).bind fun (bwDs, l5) =>
  (dropLit "MiB/s".data l5).map fun rest => ((iopsDs, bwDs), rest)

/-- `\n\s+slat` — second anchored stretch of `qd_pattern`. -/
def mSlat (l : Str) : Option (Unit × Str) :=
  (dropLit "\n".data l).bind fun l1 =>
  (span1 isPySpace l1).bind fun (_, l2) =>
  (dropLit "slat".data l2).map fun rest => ((), rest)

/-- `\n\s+clat` — third anchored stretch of `qd_pattern`. -/
def mClat (l : Str) : Option (Unit × Str) :=
  (dropLit "\n".data l).bind fun l1 =>
  (span1 isPySpace l1).bind fun (_, l2) =>
  (dropLit "clat".data l2).map fun rest => ((), rest)

/-- `avg=(\d+(?:\.\d+)?)` — final stretch of `qd_pattern`.  The capture
shape `\d+(?:\.\d+)?` determinizes to the same function as
`\d+(?:\.?\d+)?` (after a maximal digit run the dotless alternative of
the optional group can never match), so `matchNumOptFrac` is reused. -/
def mAvg (l : Str) : Option (Str × Str) :=
  (dropLit "avg=".data l).bind fun l1 => matchNumOptFrac l1

/-- The whole `qd_pattern` of `parse_fio_log` (line 29), matched at one
position.  All three wildcards are lazy and run under `re.DOTALL`, so
they may cross line boundaries — and in particular may run past the
next `--- Testing QD= ---` banner when the current section lacks its
own metric lines. -/
def qdTupleMatcher (l : Str) : Option (QdTuple × Str) :=
  (dropLit "--- Testing QD=".data l).bind fun l1 =>
  (span1 isDigitC l1).bind fun (qds, l2) =>
  (dropLit " ---".data l2).bind fun l3 =>
  (dropLit "\n".data l3).bind fun l4 =>
  (scanFor true mIopsBw l4).bind fun (_, g12, l5) =>
  (scanFor true mSlat l5).bind fun (_, _, l6) =>
  (scanFor true mClat l6).bind fun (_, _, l7) =>
  (scanFor true mAvg l7).map fun (_, avgDs, l8) =>
    ({ qd := digitsToNat qds, iopsDs := g12.1, bwDs := g12.2, avgDs := avgDs }, l8)

/-- `re.findall(qd_pattern, content, re.DOTALL)`: leftmost,
non-overlapping matches; the search resumes after each match's end. -/
def qdFindAllAux (fuel : ℕ) (l : Str) : List QdTuple :=
  match fuel with
  | 0 => []
  | fuel + 1 =>
    match searchFirst qdTupleMatcher l with
    | none => []
    | some (_, t, rest) => t :: qdFindAllAux fuel rest

/-- All `qd_pattern` matches of a log. -/
def qdFindAll (content : Str) : List QdTuple :=
  qdFindAllAux (content.length + 1) content

/-- The `re.search` of lines 40-44:
`--- Testing QD=<qd> ---.*?read: IOPS=([\d.]+)k?` over the WHOLE log
text under `re.DOTALL`.  Returns `group(0)` (rebuilt from the matched
pieces), the digit capture, and whether the optional `k` matched. -/
def iopsSearch2 (content : Str) (qd : ℕ) : Option (Str × Str × Bool) :=
  let banner := "--- Testing QD=".data ++ natDigits qd ++ " ---".data
  ((searchFirst (fun l =>
      (dropLit banner l).bind fun l1 =>
      (scanFor true matchIopsR l1).map fun (pre, g, rest) =>
        ((banner ++ pre ++ "read: IOPS=".data ++ g.1 ++
          (if g.2 then ['k'] else []), g.1, g.2), rest))
    content).map fun (_, g, _) => g)

/-- One iteration of `parse_fio_log`'s tuple loop (lines 33-58).  The
`iops_val` binding survives across loop iterations in Python, so it is
threaded through as `st`; reaching the append with `st = none` is the
`NameError` of an unbound `iops_val`.  The 500-character window is
sliced at `content.find('QD=<qd>')` over the WHOLE log — the first
occurrence of that text, wherever it is (for `QD=1` this can be inside
a `QD=12` banner of a different section).  `content.find` cannot miss
(the tuple's own banner contains the text), so the `none` arm is
unreachable. -/
def oldStep (content : Str) (st : Option ℚ) (d : RData) (t : QdTuple) :
    Except String (Option ℚ × RData) :=
  let qdText := "QD=".data ++ natDigits t.qd
  let window :=
    match findSub qdText content with
    | some i => (content.drop i).take 500
    | none => []
  let finish : Option ℚ → ℚ → Except String (Option ℚ × RData) :=
    fun st2 iv =>
      match pyFloat t.bwDs with
      | none => .error "ValueError: could not convert string to float"
      | some bw =>
        match pyFloat t.avgDs with
        | none => .error "ValueError: could not convert string to float"
        | some lat =>
          .ok (st2,
            { qd := d.qd ++ [t.qd]
              iops := d.iops ++ [iv]
              bandwidth := d.bandwidth ++ [bw]
              latency := d.latency ++ [lat] })
  if containsSub "k".data t.iopsDs || containsSub ",".data window then
    match iopsSearch2 content t.qd with
    | some (g0, ds, _) =>
      match pyFloat ds with
      | none => .error "ValueError: could not convert string to float"
      | some v =>
        match (g0.splitOn '\n').get? 1 with
        | none => .error "IndexError: list index out of range"
        | some line1 =>
          let v := if containsSub "k".data line1 then v * 1000 else v
          finish (some v) v
    | none =>
      match st with
      | none => .error "NameError: name iops_val is not defined"
      | some v => finish st v
  else
    match pyFloat t.iopsDs with
    | none => .error "ValueError: could not convert string to float"
    | some v =>
      let v := if containsSub ".".data t.iopsDs then v * 1000 else v
      finish (some v) v

/-- The tuple loop of `parse_fio_log`. -/
def oldLoop (content : Str) : List QdTuple → Option ℚ → RData → Except String RData
  | [], _, d => .ok d
  | t :: ts, st, d =>
    match oldStep content st d t with
    | .error e => .error e
    | .ok (st2, d2) => oldLoop content ts st2 d2

/-- `parse_fio_log` (plot_fio_results.py, lines 13-60), taking the log
text in place of the file path. -/
def parse_fio_log (content : Str) : Except String RData :=
  oldLoop content (qdFindAll content) none emptyRData

end Fio.Results

namespace Fio.WriteBuffer

/-- A parsed test case (the `FioCase` dataclass, lines 25-36). -/
structure FioCase where
  name : Str
  group : Str
  rw : Str
  bs : Str
  jobs : ℤ
  qd : ℤ
  err : ℕ
  write_iops : ℚ
  write_bw_mib : ℚ
  write_lat_us : ℚ
deriving DecidableEq

/-- The tail of the run banner after the opening parenthesis:
`(.*?)\)\s+---` — the lazy capture cannot cross a newline (`.` without
`re.DOTALL`), and stops at the first `)` whose continuation
`\s+---` matches. -/
def mBannerTail (l : Str) : Option (Unit × Str) :=
  (dropLit ")".data l).bind fun l1 =>
  (span1 isPySpace l1).bind fun (_, l2) =>
  (dropLit "---".data l2).map fun rest => ((), rest)

/-- Matcher for the run banner
`--- Running:\s+([^\s]+)\s+\((.*?)\)\s+---` (line 180), returning the
case name and the header-arguments capture. -/
def matchRunBanner (l : Str) : Option ((Str × Str) × Str) :=
  (dropLit "--- Running:".data l).bind fun l1 =>
  (span1 isPySpace l1).bind fun (_, l2) =>
  (span1 (fun c => !isPySpace c) l2).bind fun (name, l3) =>
  (span1 isPySpace l3).bind fun (_, l4) =>
  (dropLit "(".data l4).bind fun l5 =>
  (scanFor false mBannerTail l5).map fun (args, _, rest) => ((name, args), rest)

/-- One run section: banner name, header arguments, and the section
text (which spans from the banner's own start to the start of the next
banner, or to the end of the log). -/
structure RunSec where
  name : Str
  args : Str
  sec : Str
deriving DecidableEq

/-- The `re.finditer` + slicing loop of `parse_fio_log` (lines
180-187): each banner opens a section that runs up to the next banner's
start.  Fuel decreases per section; every banner consumes characters,
so `|content| + 1` at the top level always suffices. -/
def findRunsAux (fuel : ℕ) (l : Str) : List RunSec :=
  match fuel with
  | 0 => []
  | fuel + 1 =>
    match searchFirst matchRunBanner l with
    | none => []
    | some (pre, (name, args), rest) =>
      let bannerText := (l.drop pre.length).take (l.length - pre.length - rest.length)
      match searchFirst matchRunBanner rest with
      | none => [{ name := name, args := args, sec := bannerText ++ rest }]
      | some (pre2, _, _) =>
        { name := name, args := args, sec := bannerText ++ rest.take pre2.length } ::
          findRunsAux fuel (rest.drop pre2.length)

/-- The ordered run sections of a log. -/
def findRuns (content : Str) : List RunSec :=
  findRunsAux (content.length + 1) content

/-- One `(RW|BS|Jobs|QD|Size|Time)=([^,)]*)` match attempt at the
current position (line 119).  The keyword alternatives share no first
character, so trying them in order is exact. -/
def matchKv (l : Str) : Option ((Str × Str) × Str) :=
  let tryKey : Str → Option ((Str × Str) × Str) := fun key =>
    (dropLit (key ++ ['=']) l).map fun l1 =>
      let (v, rest) := span0 (fun c => !(c = ',' || c = ')')) l1
      ((key, v), rest)
  match tryKey "RW".data with
  | some r => some r
  | none =>
  match tryKey "BS".data with
  | some r => some r
  | none =>
  match tryKey "Jobs".data with
  | some r => some r
  | none =>
  match tryKey "QD".data with
  | some r => some r
  | none =>
  match tryKey "Size".data with
  | some r => some r
  | none => tryKey "Time".data

/-- `re.findall` of the key/value pattern over the header arguments. -/
def kvFindAllAux (fuel : ℕ) (l : Str) : List (Str × Str) :=
  match fuel with
  | 0 => []
  | fuel + 1 =>
    match searchFirst matchKv l with
    | none => []
    | some (_, kv, rest) => kv :: kvFindAllAux fuel rest

/-- All header key/value pairs. -/
def kvFindAll (l : Str) : List (Str × Str) :=
  kvFindAllAux (l.length + 1) l

/-- `dict(pairs).get(key, default)`: the LAST pair for a key wins,
as in a Python dict built from a pair list. -/
def kvGet (pairs : List (Str × Str)) (key default : Str) : Str :=
  match (pairs.reverse.find? (fun p => p.1 = key)) with
  | some p => p.2
  | none => default

/-- `value or "1"`: an empty string is falsy. -/
def orOne (v : Str) : Str := if v = [] then "1".data else v

/-- The stretch of the error pattern
`{name}: \(groupid=.*?\): err=\s*(\d+)` after its lazy wildcard:
`\): err=\s*(\d+)`. -/
def mErrTail (l : Str) : Option (Str × Str) :=
  (dropLit "): err=".data l).bind fun l1 =>
  let (_, l2) := span0 isPySpace l1
  span1 isDigitC l2

/-- `re.search(rf'{name}: \(groupid=.*?\): err=\s*(\d+)', section)`
(lines 126 and 192): the captured error code, as a number.  The lazy
wildcard runs without `re.DOTALL`, so it cannot cross a newline. -/
def errSearch (name sec : Str) : Option ℕ :=
  ((searchFirst (fun l =>
      (dropLit (name ++ ": (groupid=".data) l).bind fun l1 =>
      (scanFor false mErrTail l1).map fun (_, ds, rest) => (digitsToNat ds, rest))
    sec).map fun (_, n, _) => n)

/-- The error code used by `parse_single_case` (line 127):
the capture when the pattern matches, else 0. -/
def errOf (name sec : Str) : ℕ :=
  match errSearch name sec with
  | some n => n
  | none => 0

/-- Matcher for
`write:\s+IOPS=([\d.]+k?),\s+BW=([\d.]+)(KiB/s|MiB/s|GiB/s)`
(lines 133-136); the IOPS capture includes the optional `k`. -/
def matchWrite (l : Str) : Option ((Str × Str × Str) × Str) :=
  (dropLit "write:".data l).bind fun l1 =>
  (span1 isPySpace l1).bind fun (_, l2) =>
  (dropLit "IOPS=".data l2).bind fun l3 =>
  (span1 isDigitDot l3).bind fun (iopsDs, l4) =>
  let (iopsS, l4b) : Str × Str :=
    match l4 with
    | 'k' :: l5 => (iopsDs ++ ['k'], l5)
    | _ => (iopsDs, l4)
  (dropLit ",".data l4b).bind fun l6 =>
  (span1 isPySpace l6).bind fun (_, l7) =>
  (dropLit "BW=".data l7).bind fun l8 =>
  (span1 isDigitDot l8).bind fun (bwDs, l9) =>
  match dropLit "KiB/s".data l9 with
  | some l10 => some ((iopsS, bwDs, "KiB/s".data), l10)
  | none =>
    match dropLit "MiB/s".data l9 with
    | some l10 => some ((iopsS, bwDs, "MiB/s".data), l10)
    | none =>
      match dropLit "GiB/s".data l9 with
      | some l10 => some ((iopsS, bwDs, "GiB/s".data), l10)
      | none => none

/-- The write-IOPS/BW search of lines 133-136. -/
def writeSearch (sec : Str) : Option (Str × Str × Str) :=
  (searchFirst matchWrite sec).map fun (_, g, _) => g

/-- The lookahead of the write-block pattern (lines 145-149):
`(?=\n\s{2}(?:read|trim):|\nRun status group|\Z)` — a newline followed
by exactly two whitespace characters and `read:`/`trim:`, or the
run-status banner, or the end of the text. -/
def mBlockEnd (l : Str) : Option (Unit × Str) :=
  let alt1 : Bool :=
    match l with
    | '\n' :: c1 :: c2 :: l2 =>
      isPySpace c1 && isPySpace c2 &&
        ((dropLit "read:".data l2).isSome || (dropLit "trim:".data l2).isSome)
    | _ => false
  let alt2 : Bool :=
    match l with
    | '\n' :: l1 => (dropLit "Run status group".data l1).isSome
    | _ => false
  if l.isEmpty || alt1 || alt2 then some ((), l) else none

/-- `write:.*?(?=...)` under `re.DOTALL` (lines 145-150): the block
from the first `write:` up to the lookahead position; when the pattern
does not match at all (no `write:` in the section), the source falls
back to the whole section. -/
def writeBlockOf (sec : Str) : Str :=
  match
    searchFirst (fun l =>
      (dropLit "write:".data l).bind fun l1 =>
      (scanFor true mBlockEnd l1).map fun (mid, _, rest) =>
        ("write:".data ++ mid, rest))
      sec
  with
  | some (_, block, _) => block
  | none => sec

/-- Matcher tail for `clat \(([^)]+)\):.*?avg=([\d.]+)([kmun]?)`
(line 152) after the lazy `re.DOTALL` wildcard: `avg=([\d.]+)([kmun]?)`. -/
def mClatAvg (l : Str) : Option ((Str × Str) × Str) :=
  (dropLit "avg=".data l).bind fun l1 =>
  (span1 isDigitDot l1).map fun (ds, l2) =>
  match l2 with
  | c :: l3 => if isKmun c then ((ds, [c]), l3) else ((ds, []), l2)
  | [] => ((ds, []), [])

/-- The clat-avg search of line 152: unit capture, avg digits and
optional one-letter suffix. -/
def clatSearch (block : Str) : Option (Str × Str × Str) :=
  ((searchFirst (fun l =>
      (dropLit "clat (".data l).bind fun l1 =>
      (span1 (fun c => !(c = ')')) l1).bind fun (unit, l2) =>
      (dropLit "):".data l2).bind fun l3 =>
      (scanFor true mClatAvg l3).map fun (_, g, rest) => ((unit, g.1, g.2), rest))
    block).map fun (_, g, _) => g)

/-- The `Input/output error` marker of line 130. -/
def ioMarker : Str := "Input/output error".data

/-- `parse_single_case` (lines 110-171).  `.ok none` models a `return
None`; `.error` models an uncaught exception (a `ValueError` from `int`
on a malformed header value, or from `float` on a malformed capture).
The source's local variables (`group`, `kv`, `rw`, `bs`, `err`) are
bound once in Python; they are pure, so inlining them here preserves
the semantics exactly. -/
def parse_single_case (case_name header_args sec : Str) :
    Except String (Option FioCase) :=
  if case_name = "pre_fill".data then .ok none
  else if infer_group case_name = "other".data then .ok none
  else
    match pyInt (orOne (kvGet (kvFindAll header_args) "Jobs".data "1".data)) with
    | none => .error "ValueError: invalid literal for int"
    | some jobs =>
    match pyInt (orOne (kvGet (kvFindAll header_args) "QD".data "1".data)) with
    | none => .error "ValueError: invalid literal for int"
    | some qd =>
      if errOf case_name sec ≠ 0 then .ok none
      else if containsSub ioMarker sec then .ok none
      else
        match writeSearch sec with
        | none => .ok none
        | some (iopsS, bwDs, bwU) =>
          match parse_iops iopsS with
          | none => .error "ValueError: could not convert string to float"
          | some write_iops =>
            match parse_bw_to_mib bwDs bwU with
            | .error e => .error e
            | .ok write_bw_mib =>
              match clatSearch (writeBlockOf sec) with
              | none => .ok none
              | some (unit, avgDs, sfx) =>
                match parse_latency_to_us unit avgDs sfx with
                | none => .error "ValueError: could not convert string to float"
                | some write_lat_us =>
                  .ok (some
                    { name := case_name
                      group := infer_group case_name
                      rw := kvGet (kvFindAll header_args) "RW".data []
                      bs := kvGet (kvFindAll header_args) "BS".data []
                      jobs := jobs, qd := qd, err := errOf case_name sec
                      write_iops := write_iops
                      write_bw_mib := write_bw_mib
                      write_lat_us := write_lat_us })

/-- Insert-or-update for the `cases` dict: a Python dict keeps the
original key position and replaces the value. -/
def insertCase (name : Str) (c : FioCase) :
    List (Str × FioCase) → List (Str × FioCase)
  | [] => [(name, c)]
  | (n, v) :: rest =>
    if n = name then (n, c) :: rest else (n, v) :: insertCase name c rest

/-- `cases.get(name)`: the value stored under a name, if any. -/
def lookupCase (name : Str) : List (Str × FioCase) → Option FioCase
  | [] => none
  | (n, v) :: rest => if n = name then some v else lookupCase name rest

/-- The accumulated output of `parse_fio_log`: the `cases` dict (as an
ordered association list) and the `skipped` list. -/
structure WbAcc where
  cases : List (Str × FioCase)
  skipped : List Str
deriving DecidableEq

/-- One iteration of `parse_fio_log`'s section loop (lines 182-196):
on a `None` parse the error pattern is re-searched and the name is
recorded as skipped exactly when an explicit nonzero code is found. -/
def wbStep (acc : WbAcc) (t : RunSec) : Except String WbAcc :=
  match parse_single_case t.name t.args t.sec with
  | .error e => .error e
  | .ok none =>
    .ok
      (match errSearch t.name t.sec with
       | some n =>
         if n ≠ 0 then { acc with skipped := acc.skipped ++ [t.name] } else acc
       | none => acc)
  | .ok (some c) => .ok { acc with cases := insertCase t.name c acc.cases }

/-- The section loop of `parse_fio_log`. -/
def wbLoop : List RunSec → WbAcc → Except String WbAcc
  | [], acc => .ok acc
  | t :: ts, acc =>
    match wbStep acc t with
    | .error e => .error e
    | .ok acc2 => wbLoop ts acc2

/-- `parse_fio_log` (write-buffer script, lines 174-198), taking the
log text in place of the file path. -/
def parse_fio_log (content : Str) : Except String WbAcc :=
  wbLoop (findRuns content) ⟨[], []⟩

end Fio.WriteBuffer

namespace Fio

/-! ### Concrete inputs used by the claim theorems and witnesses -/

/-- A sweep log whose second section's QD is smaller than the first's. -/
def outOfOrderLog : Str :=
  "--- Testing QD=2 ---\nx\n--- Testing QD=1 ---\ny".data

/-- A sweep log whose first section has no metric lines at all and
whose second section is complete. -/
def missingFieldLog : Str :=
  ("--- Testing QD=1 ---\nnothing here\n--- Testing QD=2 ---\n" ++
   "  read: IOPS=100, BW=50MiB/s\n" ++
   "  clat (usec): min=5, max=20, avg=10.50, stdev=1.20\n").data

/-- A complete sweep section body: IOPS, bandwidth, clat statistics and
the three percentile entries. -/
def fullSweepSec : String :=
  "\n  read: IOPS=92.7k, BW=512KiB/s\n" ++
  "  clat (nsec): min=5, max=20, avg=45028.07, stdev=1.20\n" ++
  "  clat percentiles (usec):\n" ++
  "   | 90.00th=[ 12], 99.00th=[ 15], 99.90th=[ 18]\n"

/-- A two-section sweep log with strictly increasing queue depths. -/
def sweepDemoLog : Str :=
  ("--- Testing QD=1 ---" ++ fullSweepSec ++
   "--- Testing QD=2 ---" ++ fullSweepSec).data

/-- The dataset `parse_fio_log_improved` assembles from
`sweepDemoLog` for the read operation. -/
def sweepDemoData : Cache.CacheData :=
  { qd := [1, 2]
    iops := [92700, 92700]
    bandwidth := [1 / 2, 1 / 2]
    latency_min := [1 / 200, 1 / 200]
    latency_max := [1 / 50, 1 / 50]
    latency_avg := [4502807 / 100000, 4502807 / 100000]
    latency_p90 := [12, 12]
    latency_p99 := [15, 15]
    latency_p999 := [18, 18] }

/-- Two logs for the section-scoping property: both contain the SAME
`QD=1` section (banner plus body `filler`, which has no metric lines),
followed by a different, complete section. -/
def bleedLogA : Str :=
  ("--- Testing QD=1 ---\nfiller\n--- Testing QD=2 ---\n" ++
   "  read: IOPS=100, BW=50MiB/s\n  slat (usec): min=1\n  clat (usec): avg=10\n").data

/-- Companion log: identical `QD=1` section, different following
section (QD=3 with different metric values). -/
def bleedLogB : Str :=
  ("--- Testing QD=1 ---\nfiller\n--- Testing QD=3 ---\n" ++
   "  read: IOPS=200, BW=75MiB/s\n  slat (usec): min=1\n  clat (usec): avg=88\n").data

/-- A named-run log with a warmup section, one fully valid case, one
case with an explicit nonzero error code, one case with the I/O-error
marker (and error code 0), and one case whose name prefix maps to no
group. -/
def wbDemoLog : Str :=
  ("--- Running: pre_fill (RW=write) ---\nstuff\n" ++
   "--- Running: vol_small_seq (RW=write, BS=4k, Jobs=1, QD=1) ---\n" ++
   "vol_small_seq: (groupid=0, jobs=1): err= 0: pid=100\n" ++
   "  write: IOPS=92.7k, BW=512KiB/s\n" ++
   "    clat (nsec): min=5, max=20, avg=45028.07, stdev=1.2\n" ++
   "--- Running: vol_small_rand (RW=randwrite) ---\n" ++
   "vol_small_rand: (groupid=0, jobs=1): err= 5: pid=101\n" ++
   "--- Running: vol_large_seq (RW=write) ---\n" ++
   "vol_large_seq: (groupid=0, jobs=1): err= 0: pid=102\n" ++
   "some Input/output error occurred\n" ++
   "--- Running: warmup_run (RW=write) ---\n" ++
   "warmup_run: (groupid=0, jobs=1): err= 0: pid=103\n").data

/-- The one valid case `parse_fio_log` extracts from `wbDemoLog`. -/
def wbDemoCase : WriteBuffer.FioCase :=
  { name := "vol_small_seq".data
    group := "volume".data
    rw := "write".data
    bs := "4k".data
    jobs := 1
    qd := 1
    err := 0
    write_iops := 92700
    write_bw_mib := 1 / 2
    write_lat_us := 4502807 / 100000 }

/-- The full result of `parse_fio_log` on `wbDemoLog`. -/
def wbDemoAcc : WriteBuffer.WbAcc :=
  { cases := [("vol_small_seq".data, wbDemoCase)]
    skipped := ["vol_small_rand".data] }

/-- The failed section of `wbDemoLog` (explicit error code 5). -/
def wbRandSec : WriteBuffer.RunSec :=
  { name := "vol_small_rand".data
    args := "RW=randwrite".data
    sec := ("--- Running: vol_small_rand (RW=randwrite) ---\n" ++
            "vol_small_rand: (groupid=0, jobs=1): err= 5: pid=101\n").data }

/-- All eight metric lists of a sweep dataset have the same length as
its queue-depth key list. -/
def Cache.sameLens (d : Cache.CacheData) : Prop :=
  d.iops.length = d.qd.length ∧
  d.bandwidth.length = d.qd.length ∧
  d.latency_min.length = d.qd.length ∧
  d.latency_max.length = d.qd.length ∧
  d.latency_avg.length = d.qd.length ∧
  d.latency_p90.length = d.qd.length ∧
  d.latency_p99.length = d.qd.length ∧
  d.latency_p999.length = d.qd.length

end Fio

deriving instance DecidableEq for Except

set_option maxRecDepth 100000

namespace Fio

/-! ## Claim theorems -/

unseal Rat.mul Rat.add Rat.inv Rat.sub in
/-- C1, counterexample: the cache script's latency normalizer
`convert_latency_to_us` does NOT scale a `u`-suffixed value by 10⁻⁶
before the base-unit conversion: at value 1, base unit `usec`,
suffix `u` it returns 1, while the claimed composition yields 10⁻⁶. -/
theorem claim_C1_cex :
    Cache.convert_latency_to_us 1 "usec".data "u".data = 1 ∧
    (1 : ℚ) * specSuffixScale "u".data * specBaseToUs "usec".data = 1 / 1000000 ∧
    (1 : ℚ) ≠ 1 / 1000000 := by
  decide

/-- C1 (amended): the write-buffer script's latency normalizer
`parse_latency_to_us` does compute the claimed composition — for every
value, suffix in {none, k, m, u, n} and base unit in {nsec, usec,
msec, sec}, it returns the value scaled by the suffix magnitude
(k=10³, m=10⁶, u=10⁻⁶, n=10⁻⁹, none=1) and then converted from the
base unit to microseconds; the cache script's `convert_latency_to_us`
instead treats `u` as ×1 and `n` as ×10⁻³ and leaves `sec` (like
`usec`) unconverted. -/
theorem claim_C1 (v : ℚ) (sfx base : Str)
    (hs : sfx ∈ [[], "k".data, "m".data, "u".data, "n".data])
    (hb : base ∈ ["nsec".data, "usec".data, "msec".data, "sec".data]) :
    WriteBuffer.latConvert base sfx v =
      v * specSuffixScale sfx * specBaseToUs base := by
  fin_cases hs <;> fin_cases hb <;>
    simp only [WriteBuffer.latConvert, specSuffixScale, specBaseToUs] <;>
    simp +decide <;> ring

/-- C1, witness: the composition at value 2, suffix `u`,
base unit `msec`. -/
theorem claim_C1_witness :
    WriteBuffer.latConvert "msec".data "u".data 2 =
      2 * specSuffixScale "u".data * specBaseToUs "msec".data :=
  claim_C1 2 "u".data "msec".data (by decide) (by decide)

end Fio

namespace Fio

unseal Rat.mul Rat.add Rat.inv Rat.sub in
/-- C2, counterexample: two of the cited normalizers hand the raw value
back instead of failing.  The cache script's `parse_bw_to_mib` returns
5 for the unsupported unit `TiB/s`, and the write-buffer script's
`parse_latency_to_us` returns 7 unconverted for the unsupported base
unit `foo` (its "fallback: assume usec" branch). -/
theorem claim_C2_cex :
    Cache.parse_bw_to_mib "5".data "TiB/s".data = some 5 ∧
    WriteBuffer.parse_latency_to_us "foo".data "7".data [] = some 7 := by
  decide

/-- C2 (amended): only the write-buffer `parse_bw_to_mib` fails
explicitly on a unit outside {KiB/s, MiB/s, GiB/s} (raising
`ValueError`); the cache script's `parse_bw_to_mib` returns the parsed
value unconverted for the same inputs (and the latency converters fall
back to treating an unknown base unit as already-µs). -/
theorem claim_C2 (vs us : Str) (q : ℚ)
    (hv : pyFloat vs = some q)
    (hu : pyStrip us ∉ ["KiB/s".data, "MiB/s".data, "GiB/s".data]) :
    WriteBuffer.parse_bw_to_mib vs us =
      .error ("Unsupported bandwidth unit: " ++ String.mk (pyStrip us)) ∧
    Cache.parse_bw_to_mib vs us = some q := by
  simp only [List.mem_cons, List.mem_singleton, not_or] at hu
  obtain ⟨h1, h2, h3⟩ := hu
  refine ⟨?_, ?_⟩
  · simp [WriteBuffer.parse_bw_to_mib, hv, h1, h2, h3]
  · simp [Cache.parse_bw_to_mib, hv, h1, h2, h3]

unseal Rat.mul Rat.add Rat.inv Rat.sub in
/-- C2, witness: the amended statement at value text `5`,
unit `TiB/s`. -/
theorem claim_C2_witness :
    pyFloat "5".data = some 5 ∧
    pyStrip "TiB/s".data ∉ ["KiB/s".data, "MiB/s".data, "GiB/s".data] ∧
    (WriteBuffer.parse_bw_to_mib "5".data "TiB/s".data =
       .error ("Unsupported bandwidth unit: " ++ String.mk (pyStrip "TiB/s".data)) ∧
     Cache.parse_bw_to_mib "5".data "TiB/s".data = some 5) :=
  ⟨by decide, by decide, claim_C2 "5".data "TiB/s".data 5 (by decide) (by decide)⟩

unseal Rat.mul Rat.add Rat.inv Rat.sub in
/-- C4: the reference conversions.  IOPS text `92.7k` parses to
92700; bandwidth 512 KiB/s converts to 0.5 MiB/s; 1 GiB/s converts to
1024 MiB/s; latency avg 45028.07 under base unit nsec with no suffix
converts to 45.02807 µs; latency avg 1.90 under base unit msec with no
suffix converts to 1900 µs. -/
theorem claim_C4 :
    WriteBuffer.parse_iops "92.7k".data = some 92700 ∧
    WriteBuffer.parse_bw_to_mib "512".data "KiB/s".data = .ok (1 / 2) ∧
    WriteBuffer.parse_bw_to_mib "1".data "GiB/s".data = .ok 1024 ∧
    WriteBuffer.parse_latency_to_us "nsec".data "45028.07".data [] =
      some (4502807 / 100000) ∧
    WriteBuffer.parse_latency_to_us "msec".data "1.90".data [] = some 1900 := by
  decide

/-- C8: normalizing an already-canonical value is the identity.  For a
trimmed numeric text `t` with value `q` and no trailing `k`:
`parse_iops` returns `q`; `parse_bw_to_mib` under `MiB/s` returns `q`;
`parse_latency_to_us` under base unit `usec` with empty suffix returns
`q`. -/
theorem claim_C8 (t : Str) (q : ℚ)
    (hstrip : pyStrip t = t)
    (hk : t.getLast? ≠ some 'k')
    (hv : pyFloat t = some q) :
    WriteBuffer.parse_iops t = some q ∧
    WriteBuffer.parse_bw_to_mib t "MiB/s".data = .ok q ∧
    WriteBuffer.parse_latency_to_us "usec".data t [] = some q := by
  refine ⟨?_, ?_, ?_⟩
  · simp [WriteBuffer.parse_iops, hstrip, hk, hv]
  · simp +decide [WriteBuffer.parse_bw_to_mib, hv]
  · simp +decide [WriteBuffer.parse_latency_to_us, WriteBuffer.latConvert, hv]

unseal Rat.mul Rat.add Rat.inv Rat.sub in
/-- C8, witness: the identity at the trimmed text `7.5`
(value 15/2). -/
theorem claim_C8_witness :
    pyStrip "7.5".data = "7.5".data ∧
    ("7.5".data : Str).getLast? ≠ some 'k' ∧
    pyFloat "7.5".data = some (15 / 2) ∧
    (WriteBuffer.parse_iops "7.5".data = some (15 / 2) ∧
     WriteBuffer.parse_bw_to_mib "7.5".data "MiB/s".data = .ok (15 / 2) ∧
     WriteBuffer.parse_latency_to_us "usec".data "7.5".data [] = some (15 / 2)) :=
  ⟨by decide, by decide, by decide,
   claim_C8 "7.5".data (15 / 2) (by decide) (by decide) (by decide)⟩

end Fio

namespace Fio

unseal Rat.mul Rat.add Rat.inv Rat.sub in
/-- C3: evaluation of `plot_fio_results.py`'s `parse_fio_log_improved`
at the failing input.  The first section (QD=1) has no metric lines at
all, yet its `qd` key is appended to the dataset: the result pairs two
queue-depth keys with single-element metric lists, so the malformed
section contributed an entry (its key) and desynchronized every
per-metric sequence, instead of being entirely absent. -/
theorem claim_C3 :
    Results.parse_fio_log_improved missingFieldLog =
      .ok { qd := [1, 2], iops := [100], bandwidth := [50],
            latency := [21 / 2] } := by
  decide

unseal Rat.mul Rat.add Rat.inv Rat.sub in
/-- C5, counterexample: a queue-depth sweep log whose banners appear
out of order.  The parser appends keys in log order, so the assembled
series carries the keys `[2, 1]` — not in strictly increasing order,
refuting the claim for this input. -/
theorem claim_C5_cex :
    Results.parse_fio_log_improved outOfOrderLog =
      .ok { qd := [2, 1], iops := [], bandwidth := [], latency := [] } ∧
    ¬ ([2, 1] : List ℕ).Pairwise (· < ·) := by
  refine ⟨by decide, by decide⟩

unseal Rat.mul Rat.add Rat.inv Rat.sub in
/-- C7: evaluation of `plot_fio_results.py`'s `parse_fio_log` at the
failing input.  `bleedLogA` and `bleedLogB` contain the IDENTICAL
`QD=1` section (banner plus the body `filler`, with no metric lines),
followed by different complete sections (QD=2 resp. QD=3).  Because
`qd_pattern`'s lazy `re.DOTALL` wildcards run past the next banner, the
metrics extracted FOR QD=1 are those of the following section — so the
two runs disagree on every metric of the identical section (100/50/10
versus 200/75/88), and the later sections are swallowed entirely. -/
theorem claim_C7 :
    Results.parse_fio_log bleedLogA =
      .ok { qd := [1], iops := [100], bandwidth := [50], latency := [10] } ∧
    Results.parse_fio_log bleedLogB =
      .ok { qd := [1], iops := [200], bandwidth := [75], latency := [88] } := by
  refine ⟨by decide, by decide⟩

end Fio

namespace Fio.Cache

/-- Shape of one loop iteration: either all nine lists gain exactly one
element (the section parsed fully) or the dataset is unchanged. -/
theorem cacheStep_shape {op : Str} {d d2 : CacheData} {p : ℕ × Str}
    (h : cacheStep op d p = .ok d2) :
    d2 = d ∨ ∃ i b mn mx av x y z,
      d2 = { qd := d.qd ++ [p.1], iops := d.iops ++ [i],
             bandwidth := d.bandwidth ++ [b],
             latency_min := d.latency_min ++ [mn],
             latency_max := d.latency_max ++ [mx],
             latency_avg := d.latency_avg ++ [av],
             latency_p90 := d.latency_p90 ++ [x],
             latency_p99 := d.latency_p99 ++ [y],
             latency_p999 := d.latency_p999 ++ [z] } := by
  unfold cacheStep at h
  rcases hA : extract_all_latency_metrics p.2 with eA | latm
  · simp [hA] at h
  simp only [hA] at h
  rcases hB : extract_latency_percentiles p.2 with eB | pct
  · simp [hB] at h
  simp only [hB] at h
  rcases hio : iopsSearch op p.2 with _ | iopsStr <;> simp only [hio] at h
  · exact Or.inl (Except.ok.inj h).symm
  rcases hbw : bwSearch p.2 with _ | ⟨bwV, bwU⟩ <;> simp only [hbw] at h
  · exact Or.inl (Except.ok.inj h).symm
  rcases latm with _ | m
  · exact Or.inl (Except.ok.inj h).symm
  rcases pct with _ | pc
  · exact Or.inl (Except.ok.inj h).symm
  rcases hpi : WriteBuffer.parse_iops iopsStr with _ | iv <;> simp only [hpi] at h
  · simp at h
  rcases hpb : parse_bw_to_mib bwV bwU with _ | bv <;> simp only [hpb] at h
  · simp at h
  exact Or.inr ⟨iv, bv, m.min, m.max, m.avg, pc.p90, pc.p99, pc.p999,
    (Except.ok.inj h).symm⟩

/-- Splitting a cons step of the loop. -/
theorem cacheLoop_cons_ok {op : Str} {p : ℕ × Str} {ps : List (ℕ × Str)}
    {d r : CacheData} (h : cacheLoop op (p :: ps) d = .ok r) :
    ∃ d2, cacheStep op d p = .ok d2 ∧ cacheLoop op ps d2 = .ok r := by
  unfold cacheLoop at h
  split at h
  · exact absurd h (by simp)
  · exact ⟨_, by assumption, h⟩

/-- The loop preserves equality of the nine list lengths. -/
theorem cacheLoop_sameLens {op : Str} :
    ∀ (ps : List (ℕ × Str)) (d r : CacheData),
      cacheLoop op ps d = .ok r → sameLens d → sameLens r
  | [], d, r, h, hd => by
    unfold cacheLoop at h
    cases h
    exact hd
  | p :: ps, d, r, h, hd => by
    obtain ⟨d2, hstep, hrest⟩ := cacheLoop_cons_ok h
    refine cacheLoop_sameLens ps d2 r hrest ?_
    rcases cacheStep_shape hstep with hEq | ⟨i, b, mn, mx, av, x, y, z, hEq⟩
    · exact hEq ▸ hd
    · obtain ⟨e1, e2, e3, e4, e5, e6, e7, e8⟩ := hd
      subst hEq
      simp [sameLens, e1, e2, e3, e4, e5, e6, e7, e8]

/-- The queue-depth keys the loop appends form a sublist of the split
sections' banner numbers, in order. -/
theorem cacheLoop_qd_sub {op : Str} :
    ∀ (ps : List (ℕ × Str)) (d r : CacheData),
      cacheLoop op ps d = .ok r →
      ∃ t, r.qd = d.qd ++ t ∧ List.Sublist t (ps.map Prod.fst)
  | [], d, r, h => by
    unfold cacheLoop at h
    cases h
    exact ⟨[], by simp⟩
  | p :: ps, d, r, h => by
    obtain ⟨d2, hstep, hrest⟩ := cacheLoop_cons_ok h
    obtain ⟨t, ht, hsub⟩ := cacheLoop_qd_sub ps d2 r hrest
    rcases cacheStep_shape hstep with hEq | ⟨i, b, mn, mx, av, x, y, z, hEq⟩
    · exact ⟨t, by rw [ht, hEq], List.Sublist.cons p.1 hsub⟩
    · refine ⟨p.1 :: t, ?_, List.Sublist.cons₂ p.1 hsub⟩
      rw [ht, hEq]
      simp

end Fio.Cache

namespace Fio

/-- C9: in the cache script's `parse_fio_log_improved`, a section's
values are appended to all nine sequences or to none, so every returned
dataset has all nine sequences of equal length. -/
theorem claim_C9 (content op : Str) (r : Cache.CacheData)
    (h : Cache.parse_fio_log_improved content op = .ok r) :
    r.iops.length = r.qd.length ∧
    r.bandwidth.length = r.qd.length ∧
    r.latency_min.length = r.qd.length ∧
    r.latency_max.length = r.qd.length ∧
    r.latency_avg.length = r.qd.length ∧
    r.latency_p90.length = r.qd.length ∧
    r.latency_p99.length = r.qd.length ∧
    r.latency_p999.length = r.qd.length :=
  Cache.cacheLoop_sameLens (splitQdPairs content) Cache.emptyCacheData r h
    (by simp [Cache.sameLens, Cache.emptyCacheData])

unseal Rat.mul Rat.add Rat.inv Rat.sub in
/-- C9, witness: the equal lengths on the parsed two-section demo
log. -/
theorem claim_C9_witness :
    Cache.parse_fio_log_improved sweepDemoLog "read".data = .ok sweepDemoData ∧
    (sweepDemoData.iops.length = sweepDemoData.qd.length ∧
     sweepDemoData.bandwidth.length = sweepDemoData.qd.length ∧
     sweepDemoData.latency_min.length = sweepDemoData.qd.length ∧
     sweepDemoData.latency_max.length = sweepDemoData.qd.length ∧
     sweepDemoData.latency_avg.length = sweepDemoData.qd.length ∧
     sweepDemoData.latency_p90.length = sweepDemoData.qd.length ∧
     sweepDemoData.latency_p99.length = sweepDemoData.qd.length ∧
     sweepDemoData.latency_p999.length = sweepDemoData.qd.length) :=
  ⟨by decide, claim_C9 sweepDemoLog "read".data sweepDemoData (by decide)⟩

/-- C5 (amended): the queue-depth sweep parser performs no sorting or
deduplication — keys enter the series in log order.  Consequently the
keys are strictly increasing (hence unique) exactly when the banner
numbers of the log's sections are themselves strictly increasing, which
holds for the generated sweep logs. -/
theorem claim_C5 (content op : Str) (r : Cache.CacheData)
    (h : Cache.parse_fio_log_improved content op = .ok r)
    (hs : ((splitQdPairs content).map Prod.fst).Pairwise (· < ·)) :
    r.qd.Pairwise (· < ·) ∧ r.qd.Nodup := by
  obtain ⟨t, ht, hsub⟩ :=
    Cache.cacheLoop_qd_sub (splitQdPairs content) Cache.emptyCacheData r h
  have hq : r.qd.Pairwise (· < ·) := by
    rw [ht]
    simpa using hs.sublist hsub
  exact ⟨hq, hq.imp (fun hlt => Nat.ne_of_lt hlt)⟩

unseal Rat.mul Rat.add Rat.inv Rat.sub in
/-- C5, witness: the amended statement on the two-section demo log,
whose banners are QD=1 then QD=2. -/
theorem claim_C5_witness :
    Cache.parse_fio_log_improved sweepDemoLog "read".data = .ok sweepDemoData ∧
    (((splitQdPairs sweepDemoLog).map Prod.fst).Pairwise (· < ·)) ∧
    (sweepDemoData.qd.Pairwise (· < ·) ∧ sweepDemoData.qd.Nodup) :=
  ⟨by decide, by decide,
   claim_C5 sweepDemoLog "read".data sweepDemoData (by decide) (by decide)⟩

end Fio

namespace Fio.WriteBuffer

/-- A section whose explicit error code is nonzero never yields a
parsed case: `parse_single_case` returns `None` (when it returns at
all). -/
theorem psc_err {n a s : Str} {v : Option FioCase}
    (h : parse_single_case n a s = .ok v) (he : errOf n s ≠ 0) : v = none := by
  unfold parse_single_case at h
  split at h
  · exact (Except.ok.inj h).symm
  split at h
  · exact (Except.ok.inj h).symm
  split at h
  · simp at h
  split at h
  · simp at h
  exact (Except.ok.inj h).symm

/-- A section whose name maps to no group, or whose text contains the
I/O-error marker, never yields a parsed case. -/
theorem psc_other {n a s : Str} {v : Option FioCase}
    (h : parse_single_case n a s = .ok v)
    (hg : infer_group n = "other".data ∨ containsSub ioMarker s = true) :
    v = none := by
  unfold parse_single_case at h
  split at h
  · exact (Except.ok.inj h).symm
  split at h
  · exact (Except.ok.inj h).symm
  split at h
  · simp at h
  split at h
  · simp at h
  split at h
  · exact (Except.ok.inj h).symm
  split at h
  · exact (Except.ok.inj h).symm
  rcases hg with hg | hg
  · exact absurd hg (by assumption)
  · exact absurd hg (by assumption)

/-- A `pre_fill` section never yields a parsed case. -/
theorem psc_pre_fill {a s : Str} {v : Option FioCase}
    (h : parse_single_case "pre_fill".data a s = .ok v) : v = none := by
  unfold parse_single_case at h
  rw [if_pos rfl] at h
  exact (Except.ok.inj h).symm

/-- Inserting under a different key leaves a lookup unchanged. -/
theorem lookup_insert_ne {name n2 : Str} (c : FioCase)
    (m : List (Str × FioCase)) (hne : n2 ≠ name) :
    lookupCase name (insertCase n2 c m) = lookupCase name m := by
  induction m with
  | nil => simp [insertCase, lookupCase, hne]
  | cons p rest ih =>
    obtain ⟨k, v⟩ := p
    simp only [insertCase]
    by_cases hk : k = n2
    · rw [if_pos hk]
      simp only [lookupCase]
      rw [if_neg (by rw [hk]; exact hne), if_neg (by rw [hk]; exact hne)]
    · rw [if_neg hk]
      simp only [lookupCase]
      by_cases hk2 : k = name
      · rw [if_pos hk2, if_pos hk2]
      · rw [if_neg hk2, if_neg hk2]
        exact ih

/-- Splitting a cons step of the section loop. -/
theorem wbLoop_cons_ok {t : RunSec} {ts : List RunSec} {acc res : WbAcc}
    (h : wbLoop (t :: ts) acc = .ok res) :
    ∃ acc2, wbStep acc t = .ok acc2 ∧ wbLoop ts acc2 = .ok res := by
  unfold wbLoop at h
  split at h
  · exact absurd h (by simp)
  · exact ⟨_, by assumption, h⟩

/-- A step on a section with a different name leaves the lookup for
`name` and the membership of `name` in the skipped list unchanged. -/
theorem wbStep_other_name {acc acc2 : WbAcc} {t : RunSec} {name : Str}
    (h : wbStep acc t = .ok acc2) (hne : ¬ t.name = name) :
    lookupCase name acc2.cases = lookupCase name acc.cases ∧
      (name ∈ acc2.skipped ↔ name ∈ acc.skipped) := by
  unfold wbStep at h
  split at h
  · simp at h
  · have h2 := (Except.ok.inj h).symm
    rcases hE : errSearch t.name t.sec with _ | k <;> simp only [hE] at h2
    · rw [h2]
      exact ⟨rfl, Iff.rfl⟩
    · by_cases hk : k ≠ 0
      · rw [if_pos hk] at h2
        rw [h2]
        refine ⟨rfl, ?_⟩
        simp only [List.mem_append, List.mem_singleton]
        constructor
        · rintro (hm | hm)
          · exact hm
          · exact absurd hm.symm hne
        · exact fun hm => Or.inl hm
      · rw [if_neg hk] at h2
        rw [h2]
        exact ⟨rfl, Iff.rfl⟩
  · have h2 := (Except.ok.inj h).symm
    rw [h2]
    exact ⟨lookup_insert_ne _ acc.cases hne, Iff.rfl⟩

end Fio.WriteBuffer

namespace Fio.WriteBuffer

/-- Invariant of the section loop for a name all of whose sections
parse to `None`: the lookup for that name never changes, the skipped
list only grows, and the name is never newly skipped when all its
sections carry error code 0. -/
theorem wbLoop_inv {name : Str} :
    ∀ (ts : List RunSec) (acc res : WbAcc),
      wbLoop ts acc = .ok res →
      (∀ t ∈ ts, t.name = name →
        ∀ v, parse_single_case t.name t.args t.sec = .ok v → v = none) →
      lookupCase name res.cases = lookupCase name acc.cases ∧
      (name ∈ acc.skipped → name ∈ res.skipped) ∧
      ((name ∉ acc.skipped ∧
        ∀ t ∈ ts, t.name = name → errOf name t.sec = 0) → name ∉ res.skipped)
  | [], acc, res, h, _ => by
    unfold wbLoop at h
    cases h
    exact ⟨rfl, id, fun hp => hp.1⟩
  | t :: ts, acc, res, h, hsafe => by
    obtain ⟨acc2, hstep, hrest⟩ := wbLoop_cons_ok h
    have ih := wbLoop_inv ts acc2 res hrest
      (fun u hu => hsafe u (List.mem_cons_of_mem _ hu))
    unfold wbStep at hstep
    split at hstep
    · simp at hstep
    · have h2 := (Except.ok.inj hstep).symm
      rcases hE : errSearch t.name t.sec with _ | k <;> simp only [hE] at h2
      · subst h2
        exact ⟨ih.1, ih.2.1, fun hp =>
          ih.2.2 ⟨hp.1, fun u hu hn => hp.2 u (List.mem_cons_of_mem _ hu) hn⟩⟩
      · by_cases hk : k ≠ 0
        · rw [if_pos hk] at h2
          subst h2
          refine ⟨ih.1, fun hm => ih.2.1 (List.mem_append_left _ hm), fun hp => ?_⟩
          refine ih.2.2 ⟨?_, fun u hu hn => hp.2 u (List.mem_cons_of_mem _ hu) hn⟩
          intro hm
          rcases List.mem_append.mp hm with hm | hm
          · exact hp.1 hm
          · have hn : t.name = name := (List.mem_singleton.mp hm).symm
            have h0 := hp.2 t (List.mem_cons_self _ _) hn
            rw [← hn] at h0
            unfold errOf at h0
            rw [hE] at h0
            exact hk h0
        · rw [if_neg hk] at h2
          subst h2
          exact ⟨ih.1, ih.2.1, fun hp =>
            ih.2.2 ⟨hp.1, fun u hu hn => hp.2 u (List.mem_cons_of_mem _ hu) hn⟩⟩
    · rename_i c heqp
      have h2 := (Except.ok.inj hstep).symm
      subst h2
      by_cases ht : t.name = name
      · exact absurd (hsafe t (List.mem_cons_self _ _) ht _ heqp) (by simp)
      · exact ⟨ih.1.trans (lookup_insert_ne _ acc.cases ht), ih.2.1,
          fun hp => ih.2.2
            ⟨hp.1, fun u hu hn => hp.2 u (List.mem_cons_of_mem _ hu) hn⟩⟩

/-- Behaviour of the loop for a uniquely named target section: an
explicit nonzero error code keeps the case out of the mapping and
records it as skipped; group/marker exclusion under error code zero
keeps the case out of the mapping without recording it. -/
theorem wbLoop_case {tgt : RunSec} :
    ∀ (ts : List RunSec) (acc res : WbAcc),
      wbLoop ts acc = .ok res →
      tgt ∈ ts →
      (∀ t ∈ ts, t.name = tgt.name → t = tgt) →
      lookupCase tgt.name acc.cases = none →
      tgt.name ∉ acc.skipped →
      ((errOf tgt.name tgt.sec ≠ 0 →
          lookupCase tgt.name res.cases = none ∧ tgt.name ∈ res.skipped) ∧
       (errOf tgt.name tgt.sec = 0 →
        (infer_group tgt.name = "other".data ∨
           containsSub ioMarker tgt.sec = true) →
          lookupCase tgt.name res.cases = none ∧ tgt.name ∉ res.skipped))
  | [], _, _, _, hmem, _, _, _ => absurd hmem (List.not_mem_nil _)
  | t :: ts, acc, res, h, hmem, huniq, hl, hsk => by
    obtain ⟨acc2, hstep, hrest⟩ := wbLoop_cons_ok h
    by_cases ht : t.name = tgt.name
    · have hteq := huniq t (List.mem_cons_self _ _) ht
      subst hteq
      constructor
      · intro he
        unfold wbStep at hstep
        split at hstep
        · simp at hstep
        · have h2 := (Except.ok.inj hstep).symm
          rcases hE : errSearch t.name t.sec with _ | k
          · exfalso
            apply he
            unfold errOf
            rw [hE]
          · have hkk : errOf t.name t.sec = k := by
              unfold errOf
              rw [hE]
            have hk0 : k ≠ 0 := hkk ▸ he
            simp only [hE] at h2
            rw [if_pos hk0] at h2
            subst h2
            have hinv := wbLoop_inv ts _ res hrest
              (fun u hu hn v hv => by
                rw [huniq u (List.mem_cons_of_mem _ hu) hn] at hv
                exact psc_err hv he)
            exact ⟨hinv.1.trans hl, hinv.2.1 (by simp)⟩
        · rename_i c heqp
          exact absurd (psc_err heqp he) (by simp)
      · intro he0 hg
        unfold wbStep at hstep
        split at hstep
        · simp at hstep
        · have h2 := (Except.ok.inj hstep).symm
          have hacc2 : acc2 = acc := by
            rcases hE : errSearch t.name t.sec with _ | k <;> simp only [hE] at h2
            · exact h2
            · have hkk : errOf t.name t.sec = k := by
                unfold errOf
                rw [hE]
              rw [if_neg (by rw [← hkk, he0]; simp)] at h2
              exact h2
          rw [hacc2] at hrest
          have hinv := wbLoop_inv ts acc res hrest
            (fun u hu hn v hv => by
              rw [huniq u (List.mem_cons_of_mem _ hu) hn] at hv
              exact psc_other hv hg)
          exact ⟨hinv.1.trans hl,
            hinv.2.2 ⟨hsk, fun u hu hn => by
              rw [huniq u (List.mem_cons_of_mem _ hu) hn]
              exact he0⟩⟩
        · rename_i c heqp
          exact absurd (psc_other heqp hg) (by simp)
    · have hmem2 : tgt ∈ ts := by
        rcases List.mem_cons.mp hmem with hEq | hIn
        · exact absurd (show t.name = tgt.name by rw [hEq]) ht
        · exact hIn
      have hpres := wbStep_other_name hstep ht
      exact wbLoop_case ts acc2 res hrest hmem2
        (fun u hu => huniq u (List.mem_cons_of_mem _ hu))
        (hpres.1.trans hl) (fun hm => hsk (hpres.2.mp hm))

end Fio.WriteBuffer

namespace Fio

/-- C10: a section whose case name is exactly `pre_fill` is never
present in the case mapping returned by the write-buffer script's
`parse_fio_log`, whatever its header arguments, error code or section
content — `parse_single_case` discards it before looking at any of
them. -/
theorem claim_C10 (content : Str) (res : WriteBuffer.WbAcc)
    (h : WriteBuffer.parse_fio_log content = .ok res) :
    WriteBuffer.lookupCase "pre_fill".data res.cases = none := by
  have hinv := WriteBuffer.wbLoop_inv (WriteBuffer.findRuns content) ⟨[], []⟩ res h
    (fun t ht hn v hv => by
      rw [hn] at hv
      exact WriteBuffer.psc_pre_fill hv)
  exact hinv.1.trans rfl

unseal Rat.mul Rat.add Rat.inv Rat.sub in
/-- C10, witness: the demo log opens with a fully populated `pre_fill`
header, and the parsed mapping carries no `pre_fill` key. -/
theorem claim_C10_witness :
    WriteBuffer.parse_fio_log wbDemoLog = .ok wbDemoAcc ∧
    WriteBuffer.lookupCase "pre_fill".data wbDemoAcc.cases = none :=
  ⟨by decide, claim_C10 wbDemoLog wbDemoAcc (by decide)⟩

/-- C6: for a named-run log in which the sections carrying a given
case name are unique, a case with an explicit nonzero error code is
absent from the returned mapping and present in the skipped list; a
case excluded for an unmapped name prefix or for the I/O-error marker
(with error code zero) is absent from the mapping and NOT in the
skipped list. -/
theorem claim_C6 (content name args sec : Str) (res : WriteBuffer.WbAcc)
    (h : WriteBuffer.parse_fio_log content = .ok res)
    (hmem : (⟨name, args, sec⟩ : WriteBuffer.RunSec) ∈ WriteBuffer.findRuns content)
    (huniq : ∀ t ∈ WriteBuffer.findRuns content,
      t.name = name → t = ⟨name, args, sec⟩) :
    (WriteBuffer.errOf name sec ≠ 0 →
       WriteBuffer.lookupCase name res.cases = none ∧ name ∈ res.skipped) ∧
    (WriteBuffer.errOf name sec = 0 →
     (WriteBuffer.infer_group name = "other".data ∨
        containsSub WriteBuffer.ioMarker sec = true) →
       WriteBuffer.lookupCase name res.cases = none ∧ name ∉ res.skipped) :=
  WriteBuffer.wbLoop_case (WriteBuffer.findRuns content) ⟨[], []⟩ res h hmem huniq
    rfl (List.not_mem_nil _)

unseal Rat.mul Rat.add Rat.inv Rat.sub in
/-- C6, witness: in the demo log the case `vol_small_rand` carries
explicit error code 5; it is absent from the parsed mapping and present
in the skipped list. -/
theorem claim_C6_witness :
    WriteBuffer.parse_fio_log wbDemoLog = .ok wbDemoAcc ∧
    WriteBuffer.errOf wbRandSec.name wbRandSec.sec ≠ 0 ∧
    (WriteBuffer.lookupCase wbRandSec.name wbDemoAcc.cases = none ∧
      wbRandSec.name ∈ wbDemoAcc.skipped) :=
  ⟨by decide, by decide,
   (claim_C6 wbDemoLog wbRandSec.name wbRandSec.args wbRandSec.sec wbDemoAcc
      (by decide) (by decide) (by decide)).1 (by decide)⟩

end Fio
